import Mathlib

/-!
Shallow embedding of the scheduling-relevant logic of the timetable-reminder
repository (two React Native screens: `src/App.tsx`, the timetable screen, and
`src/unnamed/part_000`, the Todoist-style task manager).

Modelling conventions:
* Instants are milliseconds since an epoch (`Nat`); the JS `Date` calendar is
  modelled as a fixed-length day of `msPerDay` milliseconds (no DST).
* Calls to the notification port (`notifee`) are recorded as a trace
  (`List PortOp`); list order is temporal order, since every call in the
  source is `await`ed before the next one starts.
* `AsyncStorage` reads are an `Except`: `.error` models a thrown exception
  (read or `JSON.parse` failure), `.ok none` a missing key.
* `uuidv4()` results are passed in (or fixed constants) since they are opaque
  fresh identifiers.
* `String.prototype.localeCompare` on the stored `"HH:MM"` strings is modelled
  as code-point lexicographic comparison (`lexLe`), which agrees with it on
  ASCII digit/colon strings.
-/

/-- One millisecond-resolution day, as used by JS `Date` arithmetic. -/
def msPerDay : Nat := 86400000

/-- Start of the calendar day containing instant `t` (what
`triggerDate.setHours(h, m, 0, 0)` keeps of `new Date()`). -/
def dayStart (t : Nat) : Nat := t / msPerDay * msPerDay

/-- Milliseconds after midnight for wall-clock `h:m:00.000`. -/
def timeOfDayMs (h m : Nat) : Nat := (h * 60 + m) * 60000

-- --- Data model of src/App.tsx ---

/-- `interface TimetableItem` of `src/App.tsx`. -/
structure TimetableItem where
  id : String
  time : String
  task : String
deriving DecidableEq, Repr

/-- `interface TimetableList` of `src/App.tsx`. -/
structure TimetableList where
  id : String
  name : String
  tasks : List TimetableItem
deriving DecidableEq, Repr

/-- `INITIAL_DATA` of `src/App.tsx`; the `uuidv4()` list id is modelled by the
fixed fresh constant `"uuid-initial"`. -/
def INITIAL_DATA : List TimetableList :=
  [{ id := "uuid-initial", name := "Default Timetable",
     tasks := [
       { id := "1", time := "06:00", task := "Wake up" },
       { id := "2", time := "06:15", task := "Go to walk" },
       { id := "3", time := "10:00", task := "Go to College" },
       { id := "4", time := "19:30", task := "Fresh up and have dinner" },
       { id := "5", time := "20:30", task := "Study new topics" }] }]

-- --- Notification port (notifee) ---

/-- One call to the notification port, as issued by either screen. -/
inductive PortOp where
  | requestPermission
  | createChannel (channelId : String)
  | cancelAll
  | createTrigger (id : String) (timestamp : Nat) (repeatDaily : Bool)
  | cancel (id : String)
deriving DecidableEq, Repr

/-- Whether an op is a `createTriggerNotification` call. -/
def PortOp.isCreateTrigger : PortOp → Bool
  | .createTrigger _ _ _ => true
  | _ => false

/-- Whether an op is the `cancelAllNotifications` call. -/
def PortOp.isCancelAll : PortOp → Bool
  | .cancelAll => true
  | _ => false

/-- Effect of one port call on the set of live notification ids held by the
OS notification service (`cancelAll` clears everything; creating with an
existing id replaces it). -/
def applyOp (live : List String) : PortOp → List String
  | .cancelAll => []
  | .cancel i => live.filter (fun x => x ≠ i)
  | .createTrigger i _ _ => i :: live.filter (fun x => x ≠ i)
  | _ => live

/-- Live notification ids after a trace of port calls. -/
def applyOps (live : List String) (ops : List PortOp) : List String :=
  ops.foldl applyOp live

-- --- Time-string validation and parsing (src/App.tsx) ---

/-- The `handleSaveTask` input filter `/^\d{2}:\d{2}$/.test(currentTime)`:
exactly five characters, digit digit colon digit digit.  Note that the source
performs no range check on the two fields. -/
def isValidTimeInput (s : String) : Bool :=
  match s.data with
  | [a, b, c, d, e] => a.isDigit && b.isDigit && (c == ':') && d.isDigit && e.isDigit
  | _ => false

/-- Modelled from the spec (section 4.1, for comparison with
`isValidTimeInput`): accept exactly two zero-padded numeric fields separated
by a single colon with hour in [0,23] and minute in [0,59]. -/
def specParseAccepts (s : String) : Bool :=
  match s.data with
  | [a, b, c, d, e] =>
      a.isDigit && b.isDigit && (c == ':') && d.isDigit && e.isDigit &&
      decide ((a.toNat - 48) * 10 + (b.toNat - 48) ≤ 23) &&
      decide ((d.toNat - 48) * 10 + (e.toNat - 48) ≤ 59)
  | _ => false

/-- JS `String.prototype.split(':')`, modelled on the character list. -/
def splitColon : List Char → List (List Char)
  | [] => [[]]
  | c :: rest =>
      if c = ':' then [] :: splitColon rest
      else
        match splitColon rest with
        | [] => [[c]]
        | g :: gs => (c :: g) :: gs

/-- JS `Number` on a decimal-digit field: its decimal value.  (`Number` of a
non-numeric field would be `NaN`; that cannot reach the scheduling path, since
every saved time passes the `HH:MM` digit filter.) -/
def numVal (cs : List Char) : Nat :=
  cs.foldl (fun acc c => acc * 10 + (c.toNat - 48)) 0

/-- `item.time.split(':').map(Number)` destructured to `[hour, minute]`. -/
def parseHM (s : String) : Nat × Nat :=
  match (splitColon s.data).map numVal with
  | h :: m :: _ => (h, m)
  | [h] => (h, 0)
  | [] => (0, 0)

/-- Two-digit zero-padded rendering of `n < 100`, as the UI stores times. -/
def pad2 (n : Nat) : String :=
  ⟨[Char.ofNat (48 + n / 10), Char.ofNat (48 + n % 10)]⟩

/-- The stored `"HH:MM"` string for hour `h`, minute `m`. -/
def timeString (h m : Nat) : String := pad2 h ++ ":" ++ pad2 m

-- --- Occurrence computation (src/App.tsx lines 240-251) ---

/-- The trigger-instant computation inside `scheduleAllNotifications`:
`triggerDate = new Date(); triggerDate.setHours(hour, minute, 0, 0);
if (triggerDate.getTime() < Date.now()) triggerDate.setDate(getDate() + 1)`.
`now` is the reference instant (both clock reads modelled as one instant). -/
def nextTriggerMs (h m now : Nat) : Nat :=
  let trig := dayStart now + timeOfDayMs h m
  if trig < now then trig + msPerDay else trig

-- --- Bulk reschedule (src/App.tsx scheduleAllNotifications) ---

/-- The `createTriggerNotification` call built for one item of the loop body
(`repeatFrequency: RepeatFrequency.DAILY`). -/
def triggerOf (it : TimetableItem) (now : Nat) : PortOp :=
  PortOp.createTrigger it.id (nextTriggerMs (parseHM it.time).1 (parseHM it.time).2 now) true

/-- The `for (const item of activeList.tasks)` loop.  `fails id = true` models
`createTriggerNotification` rejecting for that item: the `await` throws, so the
failing call is the last one issued — control leaves the loop for the
function-level `catch`, which only logs. -/
def createLoop (items : List TimetableItem) (now : Nat) (fails : String → Bool) :
    List PortOp :=
  match items with
  | [] => []
  | it :: rest =>
      if fails it.id then [triggerOf it now]
      else triggerOf it now :: createLoop rest now fails

/-- Port-call trace of `scheduleAllNotifications` for the active list.  When
the list has no tasks the function alerts and returns before any port call.
Failures of `requestPermission`, `createChannel` and `cancelAllNotifications`
themselves are not modelled (they would abort before any `createTrigger`);
`fails` covers the per-item `createTriggerNotification` outcomes. -/
def scheduleAllOps (l : TimetableList) (now : Nat) (fails : String → Bool) :
    List PortOp :=
  if l.tasks.isEmpty then []
  else
    PortOp.requestPermission ::
    PortOp.createChannel "timetable-reminders" ::
    PortOp.cancelAll ::
    createLoop l.tasks now fails

-- --- Task save / delete (src/App.tsx) ---

/-- Code-point lexicographic order on character lists, modelling
`a.time.localeCompare(b.time) <= 0` on the ASCII digit/colon time strings. -/
def lexLe : List Char → List Char → Bool
  | [], _ => true
  | _ :: _, [] => false
  | a :: as, b :: bs =>
      if a.toNat < b.toNat then true
      else if b.toNat < a.toNat then false
      else lexLe as bs

/-- The comparator of `updatedTasks.sort((a, b) => a.time.localeCompare(b.time))`. -/
def timeLe (a b : TimetableItem) : Bool := lexLe a.time.data b.time.data

/-- The updated task array `handleSaveTask` builds before sorting: the edited
task replaced in place, or a fresh task (id `newId` from `uuidv4()`)
appended. -/
def updatedTasksOf (activeList : TimetableList) (isEditingTask : Option TimetableItem)
    (currentTime currentTask newId : String) : List TimetableItem :=
  match isEditingTask with
  | some e =>
      activeList.tasks.map (fun t =>
        if t.id == e.id then { t with time := currentTime, task := currentTask }
        else t)
  | none =>
      activeList.tasks ++ [{ id := newId, time := currentTime, task := currentTask }]

/-- `handleSaveTask` of `src/App.tsx`: rejects empty task text or a time
failing the `HH:MM` filter; otherwise replaces (edit) or appends (add) the
task in the active list, sorts that list's tasks by time, and leaves every
other list unchanged.  The JS `Array.prototype.sort` is modelled by
`mergeSort` (a sorted permutation). -/
def handleSaveTask (lists : List TimetableList) (activeListId : String)
    (isEditingTask : Option TimetableItem) (currentTime currentTask newId : String) :
    List TimetableList :=
  if currentTask = "" ∨ isValidTimeInput currentTime = false then lists
  else
    match lists.find? (fun l => l.id == activeListId) with
    | none => lists
    | some activeList =>
        let sortedTasks :=
          (updatedTasksOf activeList isEditingTask currentTime currentTask newId).mergeSort
            timeLe
        lists.map (fun l =>
          if l.id == activeListId then { l with tasks := sortedTasks } else l)

/-- `handleDeleteTask` of `src/App.tsx`: removes the task from the active list
and saves.  It performs no notifee call, so its port trace is empty. -/
def handleDeleteTask (lists : List TimetableList) (activeListId : String)
    (taskId : String) : List TimetableList × List PortOp :=
  match lists.find? (fun l => l.id == activeListId) with
  | none => (lists, [])
  | some activeList =>
      let updatedTasks := activeList.tasks.filter (fun t => t.id ≠ taskId)
      (lists.map (fun l =>
        if l.id == activeListId then { l with tasks := updatedTasks } else l), [])

-- --- Load / save of src/App.tsx ---

/-- Result state of the `loadData` effect in `src/App.tsx`: given the storage
read outcome, the resulting `lists` state and `activeListId` state
(`activeListId` starts as `null` = `none`).  A thrown read or parse error is
caught: `setLists(INITIAL_DATA)` (the `catch` does not set an active id). -/
def loadData (read : Except String (Option (List TimetableList))) :
    List TimetableList × Option String :=
  match read with
  | .ok (some parsedLists) => (parsedLists, (parsedLists.head?).map (fun l => l.id))
  | .ok none => (INITIAL_DATA, (INITIAL_DATA.head?).map (fun l => l.id))
  | .error _ => (INITIAL_DATA, none)

/-- `saveData` of `src/App.tsx`: `setLists(newLists)` runs before the awaited
storage write, and a write failure is caught and only logged, so the resulting
in-memory state is `newLists` whether or not the write succeeds. -/
def saveData (_prevLists newLists : List TimetableList) (_writeOk : Bool) :
    List TimetableList :=
  newLists

-- --- Data model of src/unnamed/part_000 (task-manager screen) ---

/-- `interface Task` of `src/unnamed/part_000` (the scheduling-relevant
fields; `description`, `tags`, recurrence flags and colors play no part in the
claims and are omitted). -/
structure TMTask where
  id : String
  title : String
  completed : Bool
  priority : String
  dueDate : Option String
  dueTime : Option String
  project : String
  createdAt : String
deriving DecidableEq, Repr

/-- `loadTasks` of `src/unnamed/part_000`: only a successful read of a stored
value changes the `tasks` state; a missing key or a thrown error (caught,
logged) leaves the previous state (initially `[]`). -/
def loadTasks (prevTasks : List TMTask) (read : Except String (Option (List TMTask))) :
    List TMTask :=
  match read with
  | .ok (some storedTasks) => storedTasks
  | .ok none => prevTasks
  | .error _ => prevTasks

/-- `saveTasks` of `src/unnamed/part_000`: `setTasks(updatedTasks)` runs only
after the awaited storage write succeeds; a thrown write is caught and logged,
leaving the previous in-memory state. -/
def saveTasks (prevTasks updatedTasks : List TMTask) (writeOk : Bool) : List TMTask :=
  if writeOk then updatedTasks else prevTasks

-- --- Notification logic of src/unnamed/part_000 ---

/-- The due instant computed by `scheduleTaskNotification`:
`new Date(task.dueDate)` (modelled by the parsed day start `dayMs`) followed
by `setHours(hours, minutes, 0, 0)`. -/
def dueInstant (dayMs h m : Nat) : Nat := dayStart dayMs + timeOfDayMs h m

/-- `scheduleTaskNotification` of `src/unnamed/part_000`, as the port trace it
issues: a single non-repeating `createTrigger` exactly when both `dueDate` and
`dueTime` are present (non-empty — JS truthiness, modelled by `Option`) and
the computed instant is strictly in the future; otherwise no call.  `dueDate`
carries the instant parsed from the date string, `dueTime` the split
hour/minute pair.  There is no next-day adjustment on this path, and a port
rejection is caught and only logged. -/
def scheduleTaskNotificationOps (dueDate : Option Nat) (dueTime : Option (Nat × Nat))
    (id : String) (now : Nat) : List PortOp :=
  match dueDate, dueTime with
  | some dayMs, some hm =>
      let t := dueInstant dayMs hm.1 hm.2
      if now < t then [PortOp.createTrigger id t false] else []
  | _, _ => []

/-- `deleteTask` of `src/unnamed/part_000` (after the confirm dialog): filters
the task out of state and issues exactly one `cancelNotification(taskId)`. -/
def deleteTask (tasks : List TMTask) (taskId : String) : List TMTask × List PortOp :=
  (tasks.filter (fun t => t.id ≠ taskId), [PortOp.cancel taskId])

-- --- Concrete fixtures used by counterexamples and witnesses ---

/-- A one-task list (id `"a1"`) for exercising the bulk reschedule. -/
def demoListA : TimetableList :=
  { id := "LA", name := "List A", tasks := [{ id := "a1", time := "06:00", task := "Wake up" }] }

/-- First task of the two-task fixture list. -/
def itemA : TimetableItem := { id := "a", time := "06:00", task := "Wake up" }

/-- Second task of the two-task fixture list. -/
def itemB : TimetableItem := { id := "b", time := "07:00", task := "Walk" }

/-- A two-task list for exercising mid-batch failure. -/
def cexList : TimetableList := { id := "L", name := "Morning", tasks := [itemA, itemB] }

/-- A port stub where only the `createTrigger` for item `"a"` is rejected. -/
def failsOnA : String → Bool := fun i => i == "a"

/-- A concrete task of the task-manager screen. -/
def demoTMTask : TMTask :=
  { id := "t1", title := "Buy milk", completed := false, priority := "medium",
    dueDate := none, dueTime := none, project := "inbox", createdAt := "2024-01-01" }

-- --- Theorems ---

/-- Claim C7: a failed load (storage read or deserialization throw) is caught
and never propagates: the timetable screen falls back to the built-in
`INITIAL_DATA`, and the task-manager screen keeps its initial empty task
list. -/
theorem load_failure_falls_back_to_default (e : String) :
    (loadData (Except.error e)).1 = INITIAL_DATA ∧
    loadTasks [] (Except.error e) = [] :=
  ⟨rfl, rfl⟩

/-- Claim C8 counterexample: in the task-manager screen, a save whose storage
write throws does NOT leave the in-memory state equal to the new state — the
state update runs only after a successful write, so the edit is lost from
memory. -/
theorem saveTasks_failure_loses_edit_cex :
    saveTasks [] [demoTMTask] false ≠ [demoTMTask] := by
  decide

/-- Claim C8 amended: the timetable screen's `saveData` sets the in-memory
state to the new value before the write, so the new state survives a write
failure; the task-manager screen's `saveTasks` sets state only after a
successful write, so a thrown write leaves the previous state.  In both, the
failure is caught (the functions are total, returning a state). -/
theorem save_failure_state_semantics (prevLists newLists : List TimetableList)
    (ok : Bool) (prevTasks newTasks : List TMTask) :
    saveData prevLists newLists ok = newLists ∧
    saveTasks prevTasks newTasks true = newTasks ∧
    saveTasks prevTasks newTasks false = prevTasks :=
  ⟨rfl, rfl, by simp [saveTasks]⟩

/-- Claim C5 counterexample: deleting the (scheduled) task `"a"` through the
timetable screen's `handleDeleteTask` emits no port operation at all — in
particular not the single `cancel("a")` the claim requires. -/
theorem handleDeleteTask_no_cancel_cex :
    (handleDeleteTask [cexList] "L" "a").2 = [] ∧
    (handleDeleteTask [cexList] "L" "a").2 ≠ [PortOp.cancel "a"] := by
  constructor
  · rfl
  · decide

/-- Claim C5 amended: the task-manager screen's `deleteTask` emits exactly one
`cancel(taskId)` and no `createTrigger`; the timetable screen's
`handleDeleteTask` only updates state and emits no port operation (the stale
notification is removed only by a later bulk reschedule's `cancelAll`). -/
theorem delete_port_operations (tasks : List TMTask) (taskId : String)
    (lists : List TimetableList) (activeListId tid : String) :
    (deleteTask tasks taskId).2 = [PortOp.cancel taskId] ∧
    ((deleteTask tasks taskId).2.filter (fun op => op.isCreateTrigger)) = [] ∧
    (handleDeleteTask lists activeListId tid).2 = [] := by
  refine ⟨rfl, rfl, ?_⟩
  unfold handleDeleteTask
  cases lists.find? (fun l => l.id == activeListId) <;> rfl

/-- Claim C10: the task-manager screen creates a trigger exactly when both
`dueDate` and `dueTime` are present and the computed due instant is strictly
after `now`; a missing field or a past-or-present due instant yields no port
call, and there is no next-day adjustment (the trigger timestamp is exactly
the due instant, non-repeating). -/
theorem addTask_schedules_only_strict_future (dueDate : Option Nat)
    (dueTime : Option (Nat × Nat)) (id : String) (now : Nat) :
    (∀ d hm, dueDate = some d → dueTime = some hm → now < dueInstant d hm.1 hm.2 →
        scheduleTaskNotificationOps dueDate dueTime id now =
          [PortOp.createTrigger id (dueInstant d hm.1 hm.2) false]) ∧
    (∀ d hm, dueDate = some d → dueTime = some hm → dueInstant d hm.1 hm.2 ≤ now →
        scheduleTaskNotificationOps dueDate dueTime id now = []) ∧
    (dueDate = none → scheduleTaskNotificationOps dueDate dueTime id now = []) ∧
    (dueTime = none → scheduleTaskNotificationOps dueDate dueTime id now = []) := by
  refine ⟨?_, ?_, ?_, ?_⟩
  · rintro d hm rfl rfl hlt
    simp [scheduleTaskNotificationOps, hlt]
  · rintro d hm rfl rfl hle
    simp [scheduleTaskNotificationOps, Nat.not_lt.mpr hle]
  · rintro rfl
    simp [scheduleTaskNotificationOps]
  · rintro rfl
    cases dueDate <;> simp [scheduleTaskNotificationOps]

/-- Claim C10 witness: at `dueDate` day 0, `dueTime` 09:30, `now = 0`, a
single non-repeating trigger at the due instant is created; with the date
missing, nothing is created. -/
theorem addTask_schedules_only_strict_future_witness :
    scheduleTaskNotificationOps (some 0) (some (9, 30)) "t1" 0 =
      [PortOp.createTrigger "t1" (dueInstant 0 9 30) false] ∧
    scheduleTaskNotificationOps none (some (9, 30)) "t1" 0 = [] :=
  ⟨(addTask_schedules_only_strict_future (some 0) (some (9, 30)) "t1" 0).1
      0 (9, 30) rfl rfl (by decide),
   (addTask_schedules_only_strict_future none (some (9, 30)) "t1" 0).2.2.1 rfl⟩

/-- Decimal digit characters are accepted by `Char.isDigit`. -/
theorem digit_char_isDigit : ∀ d : Nat, d < 10 → (Char.ofNat (48 + d)).isDigit = true := by
  decide

/-- Character list of a rendered `"HH:MM"` string. -/
theorem data_timeString (h m : Nat) :
    (timeString h m).data =
      [Char.ofNat (48 + h / 10), Char.ofNat (48 + h % 10), ':',
       Char.ofNat (48 + m / 10), Char.ofNat (48 + m % 10)] := by
  simp [timeString, pad2, String.data_append]

/-- The `HH:MM` input filter accepts exactly the five-character strings
digit digit colon digit digit. -/
theorem isValidTimeInput_iff (s : String) :
    isValidTimeInput s = true ↔ ∃ a b d e : Char,
      s.data = [a, b, ':', d, e] ∧ a.isDigit = true ∧ b.isDigit = true ∧
      d.isDigit = true ∧ e.isDigit = true := by
  constructor
  · intro h
    unfold isValidTimeInput at h
    split at h
    · rename_i a b c d e heq
      simp only [Bool.and_eq_true, beq_iff_eq] at h
      obtain ⟨⟨⟨⟨ha, hb⟩, hc⟩, hd⟩, he⟩ := h
      subst hc
      exact ⟨a, b, d, e, heq, ha, hb, hd, he⟩
    · exact absurd h (by simp)
  · rintro ⟨a, b, d, e, hdata, ha, hb, hd, he⟩
    unfold isValidTimeInput
    rw [hdata]
    simp [ha, hb, hd, he]

/-- Claim C2 counterexample: the time filter accepts `"24:00"` even though its
hour field is out of range — the source checks only the digit shape, never the
field ranges, so the claimed rejection of out-of-range times fails
(`specParseAccepts` is the spec's contract, which does reject it). -/
theorem time_filter_range_cex :
    isValidTimeInput "24:00" = true ∧ specParseAccepts "24:00" = false := by
  decide

/-- Claim C2 amended: the filter accepts a string exactly when it is two
digits, a single colon, and two digits — with no range check.  Every in-range
zero-padded `"HH:MM"` is accepted (so is every out-of-range digit pair such as
`"24:00"`), while `"1:30"`, `"ab:cd"` and `""` are rejected. -/
theorem time_filter_digit_shape (h m : Nat) (hh : h ≤ 23) (hm : m ≤ 59) :
    isValidTimeInput (timeString h m) = true ∧
    isValidTimeInput "1:30" = false ∧
    isValidTimeInput "ab:cd" = false ∧
    isValidTimeInput "" = false ∧
    (∀ s : String, isValidTimeInput s = true ↔ ∃ a b d e : Char,
      s.data = [a, b, ':', d, e] ∧ a.isDigit = true ∧ b.isDigit = true ∧
      d.isDigit = true ∧ e.isDigit = true) := by
  refine ⟨?_, by decide, by decide, by decide, isValidTimeInput_iff⟩
  rw [isValidTimeInput_iff]
  refine ⟨_, _, _, _, data_timeString h m, ?_, ?_, ?_, ?_⟩
  · exact digit_char_isDigit _ (by omega)
  · exact digit_char_isDigit _ (by omega)
  · exact digit_char_isDigit _ (by omega)
  · exact digit_char_isDigit _ (by omega)

/-- Claim C2 witness: the amended statement at hour 23, minute 59. -/
theorem time_filter_digit_shape_witness :
    isValidTimeInput (timeString 23 59) = true ∧
    isValidTimeInput "1:30" = false ∧
    isValidTimeInput "ab:cd" = false ∧
    isValidTimeInput "" = false ∧
    (∀ s : String, isValidTimeInput s = true ↔ ∃ a b d e : Char,
      s.data = [a, b, ':', d, e] ∧ a.isDigit = true ∧ b.isDigit = true ∧
      d.isDigit = true ∧ e.isDigit = true) :=
  time_filter_digit_shape 23 59 (by decide) (by decide)

/-- Claim C4: for a valid time-of-day the computed trigger is today's instant
at that wall-clock time when that instant is not strictly before the reference
instant (strict `<`, so equality schedules today), and otherwise that instant
advanced by exactly one day; consequently the result always lies in
`[now, now + one day)` and carries the requested time-of-day. -/
theorem nextTrigger_day_advance (h m now : Nat) (hh : h < 24) (hm : m < 60) :
    (now ≤ dayStart now + timeOfDayMs h m →
        nextTriggerMs h m now = dayStart now + timeOfDayMs h m) ∧
    (dayStart now + timeOfDayMs h m < now →
        nextTriggerMs h m now = dayStart now + timeOfDayMs h m + msPerDay) ∧
    nextTriggerMs h m now % msPerDay = timeOfDayMs h m ∧
    now ≤ nextTriggerMs h m now ∧
    nextTriggerMs h m now < now + msPerDay := by
  refine ⟨fun hle => ?_, fun hlt => ?_, ?_, ?_, ?_⟩ <;>
    · simp only [nextTriggerMs, dayStart, timeOfDayMs, msPerDay] at *
      split <;> omega

/-- Claim C4 witness: hour 9, minute 30 against reference instant 1000
(just after the epoch midnight, so today's 09:30 is still ahead). -/
theorem nextTrigger_day_advance_witness :
    (1000 ≤ dayStart 1000 + timeOfDayMs 9 30 →
        nextTriggerMs 9 30 1000 = dayStart 1000 + timeOfDayMs 9 30) ∧
    (dayStart 1000 + timeOfDayMs 9 30 < 1000 →
        nextTriggerMs 9 30 1000 = dayStart 1000 + timeOfDayMs 9 30 + msPerDay) ∧
    nextTriggerMs 9 30 1000 % msPerDay = timeOfDayMs 9 30 ∧
    1000 ≤ nextTriggerMs 9 30 1000 ∧
    nextTriggerMs 9 30 1000 < 1000 + msPerDay :=
  nextTrigger_day_advance 9 30 1000 (by decide) (by decide)

/-- With no port failures, the loop issues one `createTrigger` per item. -/
theorem createLoop_no_fail (items : List TimetableItem) (now : Nat) :
    createLoop items now (fun _ => false) = items.map (fun it => triggerOf it now) := by
  induction items with
  | nil => rfl
  | cons it rest ih => simp [createLoop, ih]

/-- When the first failing item is `it`, the loop issues the triggers for the
items before it, then the failing attempt, and nothing for the items after. -/
theorem createLoop_fail_split (pre : List TimetableItem) (it : TimetableItem)
    (suf : List TimetableItem) (now : Nat) (fails : String → Bool)
    (hpre : ∀ p ∈ pre, fails p.id = false) (hit : fails it.id = true) :
    createLoop (pre ++ it :: suf) now fails =
      pre.map (fun p => triggerOf p now) ++ [triggerOf it now] := by
  induction pre with
  | nil => simp [createLoop, hit]
  | cons p ps ih =>
      have hp : fails p.id = false := hpre p (by simp)
      simp only [List.cons_append, createLoop, hp]
      simp [ih (fun q hq => hpre q (by simp [hq]))]

/-- Every operation the loop issues is the trigger of one of its items. -/
theorem mem_createLoop (op : PortOp) (items : List TimetableItem) (now : Nat)
    (fails : String → Bool) (hop : op ∈ createLoop items now fails) :
    ∃ it ∈ items, op = triggerOf it now := by
  induction items with
  | nil => cases hop
  | cons it rest ih =>
      unfold createLoop at hop
      by_cases hf : fails it.id = true
      · rw [if_pos hf] at hop
        simp only [List.mem_singleton] at hop
        exact ⟨it, by simp, hop⟩
      · rw [if_neg hf] at hop
        rcases List.mem_cons.mp hop with h | h
        · exact ⟨it, by simp, h⟩
        · obtain ⟨x, hx, hxe⟩ := ih h
          exact ⟨x, by simp [hx], hxe⟩

/-- Claim C1 counterexample: on the two-task list, with the first item's
`createTrigger` rejected, the remaining item's `createTrigger` is never issued
— the function-level catch aborts the rest of the batch instead of proceeding
per item. -/
theorem scheduleAll_failure_cex :
    cexList.tasks.length = 2 ∧ failsOnA "a" = true ∧ failsOnA "b" = false ∧
    (scheduleAllOps cexList 0 failsOnA).countP
      (fun op => match op with
        | PortOp.createTrigger i _ _ => i == "b"
        | _ => false) = 0 := by
  decide

/-- Claim C1 amended: a `createTrigger` failure is caught by the single
batch-level handler, which only logs: nothing already applied is rolled back
(the trace with a failure is an initial segment of the no-failure trace), but
the calls for the items after the failing one are skipped, leaving them — and
the failing item — unscheduled. -/
theorem scheduleAll_failure_aborts (l : TimetableList) (now : Nat)
    (fails : String → Bool) (pre suf : List TimetableItem) (it : TimetableItem)
    (hsplit : l.tasks = pre ++ it :: suf)
    (hpre : ∀ p ∈ pre, fails p.id = false)
    (hit : fails it.id = true) :
    scheduleAllOps l now fails =
      [PortOp.requestPermission, PortOp.createChannel "timetable-reminders",
       PortOp.cancelAll] ++ (pre.map (fun p => triggerOf p now) ++ [triggerOf it now]) ∧
    ∃ rest, scheduleAllOps l now (fun _ => false) = scheduleAllOps l now fails ++ rest := by
  have hne : l.tasks ≠ [] := by simp [hsplit]
  have hisEmpty : ¬ (l.tasks.isEmpty = true) := by simp [List.isEmpty_iff, hne]
  have htrace : scheduleAllOps l now fails =
      [PortOp.requestPermission, PortOp.createChannel "timetable-reminders",
       PortOp.cancelAll] ++ (pre.map (fun p => triggerOf p now) ++ [triggerOf it now]) := by
    unfold scheduleAllOps
    rw [if_neg hisEmpty, hsplit, createLoop_fail_split pre it suf now fails hpre hit]
    rfl
  refine ⟨htrace, suf.map (fun p => triggerOf p now), ?_⟩
  rw [htrace]
  unfold scheduleAllOps
  rw [if_neg hisEmpty, hsplit, createLoop_no_fail]
  simp

/-- Claim C1 witness: the amended statement on the two-task list with the
first item failing. -/
theorem scheduleAll_failure_aborts_witness :
    scheduleAllOps cexList 0 failsOnA =
      [PortOp.requestPermission, PortOp.createChannel "timetable-reminders",
       PortOp.cancelAll] ++
        (([] : List TimetableItem).map (fun p => triggerOf p 0) ++ [triggerOf itemA 0]) ∧
    ∃ rest, scheduleAllOps cexList 0 (fun _ => false) =
      scheduleAllOps cexList 0 failsOnA ++ rest :=
  scheduleAll_failure_aborts cexList 0 failsOnA [] [itemB] itemA rfl
    (by simp) (by decide)

/-- Claim C3: with no port failures, one bulk reschedule issues a fixed
prelude (permission request and channel creation, neither a cancel nor a
create), then exactly one `cancelAll`, then exactly one `createTrigger` per
item in the list's stored order; the trace order is temporal order because
each call is awaited, so every `createTrigger` is issued only after the
`cancelAll` has completed. -/
theorem bulk_reschedule_trace (l : TimetableList) (now : Nat) (hne : l.tasks ≠ []) :
    scheduleAllOps l now (fun _ => false) =
      [PortOp.requestPermission, PortOp.createChannel "timetable-reminders"] ++
        PortOp.cancelAll :: l.tasks.map (fun it => triggerOf it now) ∧
    (∀ op ∈ [PortOp.requestPermission, PortOp.createChannel "timetable-reminders"],
        op.isCancelAll = false ∧ op.isCreateTrigger = false) ∧
    (scheduleAllOps l now (fun _ => false)).countP (fun op => op.isCancelAll) = 1 ∧
    (scheduleAllOps l now (fun _ => false)).countP (fun op => op.isCreateTrigger) =
      l.tasks.length := by
  have hisEmpty : ¬ (l.tasks.isEmpty = true) := by simp [List.isEmpty_iff, hne]
  have htrace : scheduleAllOps l now (fun _ => false) =
      [PortOp.requestPermission, PortOp.createChannel "timetable-reminders"] ++
        PortOp.cancelAll :: l.tasks.map (fun it => triggerOf it now) := by
    unfold scheduleAllOps
    rw [if_neg hisEmpty, createLoop_no_fail]
    rfl
  refine ⟨htrace, by decide, ?_, ?_⟩
  · rw [htrace]
    simp only [List.countP_append, List.countP_cons, List.countP_map]
    simp [PortOp.isCancelAll, List.countP_eq_zero, triggerOf, Function.comp]
  · rw [htrace]
    simp only [List.countP_append, List.countP_cons, List.countP_map]
    have : ∀ l' : List TimetableItem,
        l'.countP ((fun op => op.isCreateTrigger) ∘ (fun it => triggerOf it now)) =
          l'.length := by
      intro l'
      rw [List.countP_eq_length]
      intro a _
      simp [triggerOf, PortOp.isCreateTrigger]
    rw [this]
    simp [List.countP_cons, PortOp.isCreateTrigger]

/-- Claim C3 witness: the trace shape on the concrete two-task list. -/
theorem bulk_reschedule_trace_witness :
    scheduleAllOps cexList 0 (fun _ => false) =
      [PortOp.requestPermission, PortOp.createChannel "timetable-reminders"] ++
        PortOp.cancelAll :: cexList.tasks.map (fun it => triggerOf it 0) ∧
    (∀ op ∈ [PortOp.requestPermission, PortOp.createChannel "timetable-reminders"],
        op.isCancelAll = false ∧ op.isCreateTrigger = false) ∧
    (scheduleAllOps cexList 0 (fun _ => false)).countP (fun op => op.isCancelAll) = 1 ∧
    (scheduleAllOps cexList 0 (fun _ => false)).countP (fun op => op.isCreateTrigger) =
      cexList.tasks.length :=
  bulk_reschedule_trace cexList 0 (by decide)

/-- Claim C6 counterexample: with a notification of another list (`"other-1"`)
live at the port, bulk-rescheduling list A leaves only list A's notification —
the batch's global `cancelAll` cancels the other list's notification instead
of leaving it live. -/
theorem cross_list_cancelAll_cex :
    applyOps ["other-1"] (scheduleAllOps demoListA 0 (fun _ => false)) = ["a1"] ∧
    "other-1" ∉ applyOps ["other-1"] (scheduleAllOps demoListA 0 (fun _ => false)) := by
  decide

/-- Claim C6 amended: every `createTrigger` in a bulk reschedule references an
item id of the active list (no operation names another list's item), but the
batch opens with a global `cancelAll` — the port state after the batch is
independent of whatever was live before, so other lists' previously scheduled
notifications do not survive it. -/
theorem cross_list_ops (l : TimetableList) (now : Nat) (fails : String → Bool)
    (i : String) (ts : Nat) (r : Bool) (live : List String)
    (hmem : PortOp.createTrigger i ts r ∈ scheduleAllOps l now fails)
    (hne : l.tasks ≠ []) :
    i ∈ l.tasks.map (fun t => t.id) ∧
    applyOps live (scheduleAllOps l now fails) =
      applyOps [] (scheduleAllOps l now fails) := by
  have hisEmpty : ¬ (l.tasks.isEmpty = true) := by simp [List.isEmpty_iff, hne]
  constructor
  · unfold scheduleAllOps at hmem
    rw [if_neg hisEmpty] at hmem
    simp only [List.mem_cons] at hmem
    rcases hmem with h | h | h | h
    · exact absurd h (by simp)
    · exact absurd h (by simp)
    · exact absurd h (by simp)
    · obtain ⟨it, hit, heq⟩ := mem_createLoop _ _ _ _ h
      have hid : i = it.id := by
        simp only [triggerOf] at heq
        exact (PortOp.createTrigger.injEq _ _ _ _ _ _).mp heq |>.1
      exact List.mem_map.mpr ⟨it, hit, hid.symm⟩
  · unfold scheduleAllOps
    rw [if_neg hisEmpty]
    simp [applyOps, applyOp]

/-- Claim C6 witness: on the one-task list A with another list's notification
live. -/
theorem cross_list_ops_witness :
    "a1" ∈ demoListA.tasks.map (fun t => t.id) ∧
    applyOps ["other-1"] (scheduleAllOps demoListA 0 (fun _ => false)) =
      applyOps [] (scheduleAllOps demoListA 0 (fun _ => false)) :=
  cross_list_ops demoListA 0 (fun _ => false) "a1" 21600000 true ["other-1"]
    (by decide) (by decide)

/-- The comparator is total. -/
theorem lexLe_total : ∀ as bs : List Char, (lexLe as bs || lexLe bs as) = true := by
  intro as
  induction as with
  | nil => intro bs; simp [lexLe]
  | cons a as ih =>
      intro bs
      cases bs with
      | nil => simp [lexLe]
      | cons b bs =>
          simp only [lexLe]
          by_cases h1 : a.toNat < b.toNat
          · simp [h1]
          · by_cases h2 : b.toNat < a.toNat
            · simp [h1, h2]
            · simp [h1, h2, ih bs]

/-- The comparator is transitive. -/
theorem lexLe_trans : ∀ as bs cs : List Char,
    lexLe as bs = true → lexLe bs cs = true → lexLe as cs = true := by
  intro as
  induction as with
  | nil => intro bs cs _ _; simp [lexLe]
  | cons a as ih =>
      intro bs cs hab hbc
      cases bs with
      | nil => simp [lexLe] at hab
      | cons b bs =>
          cases cs with
          | nil => simp [lexLe] at hbc
          | cons c cs =>
              simp only [lexLe] at hab hbc ⊢
              split_ifs at hab hbc ⊢ <;>
                first
                  | rfl
                  | omega
                  | exact ih bs cs hab hbc

/-- `timeLe` transitivity, lifted from the character comparator. -/
theorem timeLe_trans (a b c : TimetableItem) :
    timeLe a b = true → timeLe b c = true → timeLe a c = true :=
  lexLe_trans _ _ _

/-- `timeLe` totality, lifted from the character comparator. -/
theorem timeLe_total (a b : TimetableItem) : (timeLe a b || timeLe b a) = true :=
  lexLe_total _ _

/-- Pairs of a list zipped with its own image under `f`. -/
theorem zip_map_self {α β : Type} (f : α → β) (l : List α) :
    ∀ p ∈ l.zip (l.map f), p.2 = f p.1 := by
  induction l with
  | nil => simp
  | cons a t ih =>
      intro p hp
      simp only [List.map_cons, List.zip_cons_cons, List.mem_cons] at hp
      rcases hp with rfl | hp
      · rfl
      · exact ih p hp

/-- Claim C9: a successful task save (add or edit) leaves every other list
untouched in place, and stores the active list's task array sorted ascending
by the time string under the code-point lexicographic comparator — so a later
bulk reschedule, which walks the stored array in order, iterates in time
order. -/
theorem save_sorts_active_list (lists : List TimetableList) (activeListId : String)
    (editing : Option TimetableItem) (ctime ctask nid : String) (al : TimetableList)
    (hTask : ctask ≠ "") (hTime : isValidTimeInput ctime = true)
    (hFound : lists.find? (fun l => l.id == activeListId) = some al) :
    (handleSaveTask lists activeListId editing ctime ctask nid).length = lists.length ∧
    ∀ p ∈ lists.zip (handleSaveTask lists activeListId editing ctime ctask nid),
      (p.1.id ≠ activeListId → p.2 = p.1) ∧
      (p.1.id = activeListId →
        List.Pairwise (fun a b => timeLe a b = true) p.2.tasks) := by
  have hguard : ¬ (ctask = "" ∨ isValidTimeInput ctime = false) := by
    simp [hTask, hTime]
  have hres : handleSaveTask lists activeListId editing ctime ctask nid =
      lists.map (fun l =>
        if l.id == activeListId then
          { l with tasks := (updatedTasksOf al editing ctime ctask nid).mergeSort timeLe }
        else l) := by
    unfold handleSaveTask
    rw [if_neg hguard, hFound]
  constructor
  · rw [hres]; simp
  · intro p hp
    rw [hres] at hp
    have h2 := zip_map_self _ lists p hp
    constructor
    · intro hne
      rw [h2, if_neg (by simp [hne])]
    · intro heq
      rw [h2, if_pos (by simp [heq])]
      exact List.sorted_mergeSort timeLe_trans timeLe_total _

/-- Claim C9 witness: adding task `"Stretch"` at `"05:30"` to the two-task
list. -/
theorem save_sorts_active_list_witness :
    (handleSaveTask [cexList] "L" none "05:30" "Stretch" "n1").length = [cexList].length ∧
    ∀ p ∈ [cexList].zip (handleSaveTask [cexList] "L" none "05:30" "Stretch" "n1"),
      (p.1.id ≠ "L" → p.2 = p.1) ∧
      (p.1.id = "L" →
        List.Pairwise (fun a b => timeLe a b = true) p.2.tasks) :=
  save_sorts_active_list [cexList] "L" none "05:30" "Stretch" "n1" cexList
    (by decide) (by decide) (by decide)
